import Mathlib

/-!
Verification development for the ingredient-finder program: a shallow
embedding of its data model (ingredient records, recipe table, bulk set),
of its table parser, unit converter and shopping-cart builder, together
with theorems settling the specified properties.

Modelling conventions:
* Python floats are modelled as exact rationals; the float nan sentinel
  (used both for an indefinite shelf life and for an incompatible unit
  conversion) is modelled by an explicit `Option`, with `none` playing the
  role of nan.
* Exceptions (KeyError on an unknown recipe, ValueError/IndexError while
  parsing a row, StopIteration on a missing header) are modelled by
  `Option`-valued functions returning `none`: no partial result escapes.
* Python object aliasing matters to the cart builder (the shopping list
  stores references to the very ingredient objects held by the recipe
  table, and merging mutates them in place), so the builder is modelled as
  a state machine whose shopping list holds references, pairs of a recipe
  key and an index, into the evolving recipe table.
-/

/-- One ingredient line of one recipe (the Ingredient dataclass). The
`duration` field is `none` when the source stores the float nan sentinel
meaning an indefinite shelf life. In Python, equality and hashing of
ingredients depend only on `name`; the builder below compares names
explicitly instead. -/
structure Ingredient where
  name : String
  quantity : ℚ
  unit : String
  location : String
  duration : Option ℚ
deriving DecidableEq, Repr

instance : Inhabited Ingredient :=
  ⟨⟨"", 0, "", "", some 0⟩⟩

/-- ASCII whitespace, the characters Python str.strip removes. -/
def isSpace (c : Char) : Bool :=
  c == ' ' || c == '\t' || c == '\n' || c == '\r' || c == '\x0b' || c == '\x0c'

/-- Drop leading and trailing whitespace from a character list. -/
def stripChars (cs : List Char) : List Char :=
  ((cs.dropWhile isSpace).reverse.dropWhile isSpace).reverse

/-- Python str.strip restricted to ASCII whitespace. -/
def pyStrip (s : String) : String :=
  String.mk (stripChars s.data)

/-- ASCII lowercase of one character, the case folding Python str.lower
performs on the unit names appearing in this program. -/
def lowerChar (c : Char) : Char :=
  if 65 ≤ c.toNat && c.toNat ≤ 90 then Char.ofNat (c.toNat + 32) else c

/-- Python str.lower restricted to ASCII letters. -/
def pyLower (s : String) : String :=
  String.mk (s.data.map lowerChar)

/-- Value of a list of decimal digit characters. -/
def digitsVal (cs : List Char) : ℕ :=
  cs.foldl (fun a c => 10 * a + (c.toNat - 48)) 0

/-- A nonempty, all-digit character list. -/
def isDigits (cs : List Char) : Bool :=
  !cs.isEmpty && cs.all Char.isDigit

/-- Python builtin float applied to a string, modelled on the numeric
decimal literals: optional sign, digits with an optional decimal point,
optional exponent, surrounding whitespace ignored; any other text is a
ValueError, modelled as `none`. The special tokens inf and nan and digit
underscores are outside the model. -/
def pyFloat (s : String) : Option ℚ :=
  let cs0 := stripChars s.data
  let sgn : ℚ := match cs0 with
    | '-' :: _ => -1
    | _ => 1
  let cs := match cs0 with
    | '-' :: rest => rest
    | '+' :: rest => rest
    | _ => cs0
  let mant := match cs.findIdx? (fun c => c == 'e' || c == 'E') with
    | none => cs
    | some i => cs.take i
  let expPart : Option (List Char) := match cs.findIdx? (fun c => c == 'e' || c == 'E') with
    | none => none
    | some i => some (cs.drop (i + 1))
  let expVal : Option ℤ := match expPart with
    | none => some 0
    | some ec =>
      let esgn : ℤ := match ec with
        | '-' :: _ => -1
        | _ => 1
      let ed := match ec with
        | '-' :: rest => rest
        | '+' :: rest => rest
        | _ => ec
      if isDigits ed then some (esgn * (digitsVal ed : ℤ)) else none
  let mantVal : Option ℚ := match mant.findIdx? (fun c => c == '.') with
    | none => if isDigits mant then some (digitsVal mant : ℚ) else none
    | some i =>
      let ip := mant.take i
      let fp := mant.drop (i + 1)
      if (ip.all Char.isDigit && fp.all Char.isDigit) && (!ip.isEmpty || !fp.isEmpty) then
        some ((digitsVal ip : ℚ) + (digitsVal fp : ℚ) / ((10 ^ fp.length : ℕ) : ℚ))
      else
        none
  match mantVal, expVal with
  | some m, some e =>
    some (sgn * m *
      (if 0 ≤ e then ((10 ^ e.toNat : ℕ) : ℚ) else 1 / ((10 ^ (-e).toNat : ℕ) : ℚ)))
  | _, _ => none

/-- Liter value of each recognized volume unit (the VOLUME_UNITS table). -/
def VOLUME_UNITS : List (String × ℚ) :=
  [("tbsp", 147868 / 10000000), ("tsp", 492892 / 100000000),
   ("cup", 236588 / 1000000), ("oz", 295735 / 10000000)]

/-- Kilogram value of each recognized mass unit (the MASS_UNITS table). -/
def MASS_UNITS : List (String × ℚ) :=
  [("g", 1 / 1000), ("kg", 1), ("lb", 453592 / 1000000), ("oz", 283495 / 10000000)]

/-- Lookup of a unit name in one of the constant tables. -/
def unitLookup (tbl : List (String × ℚ)) (u : String) : Option ℚ :=
  (tbl.find? (fun p => p.1 == u)).map (fun p => p.2)

/-- The convert_units function: lowercase both unit names, return 1.0 on
equal names, else the ratio of the table entry of the first over that of
the second when both names sit in the volume table, else likewise for the
mass table, else the nan sentinel for incompatible units, modelled as
`none`. -/
def convert_units (unit1 unit2 : String) : Option ℚ :=
  let u1 := pyLower unit1
  let u2 := pyLower unit2
  if u1 = u2 then some 1
  else
    match unitLookup VOLUME_UNITS u1, unitLookup VOLUME_UNITS u2 with
    | some a, some b => some (a / b)
    | _, _ =>
      match unitLookup MASS_UNITS u1, unitLookup MASS_UNITS u2 with
      | some a, some b => some (a / b)
      | _, _ => none

/-- Python round(x, 2): round half to even at two decimal places, applied
to the exact rational model of the value. The floor and the fractional
part of 100 * x are computed from the numerator and denominator with
Euclidean integer division. -/
def pyRound2 (q : ℚ) : ℚ :=
  let y := q * 100
  let n : ℤ := y.num.ediv (y.den : ℤ)
  let r : ℤ := y.num.emod (y.den : ℤ)
  let k : ℤ :=
    if 2 * r < (y.den : ℤ) then n
    else if (y.den : ℤ) < 2 * r then n + 1
    else if n % 2 = 0 then n else n + 1
  (k : ℚ) / 100

/-- The recipe table: a mapping, in insertion order, from a recipe name to
its ordered ingredient list (the recipes dict). -/
abbrev RecipeTable := List (String × List Ingredient)

/-- Dictionary lookup on the recipe table, `none` modelling a KeyError. -/
def dictGet (tbl : RecipeTable) (k : String) : Option (List Ingredient) :=
  (tbl.find? (fun p => p.1 == k)).map (fun p => p.2)

/-- Append an ingredient to the list stored under a key, creating the key
at the end of the table on its first occurrence, as a Python dict does. -/
def dictAppend (tbl : RecipeTable) (k : String) (ing : Ingredient) : RecipeTable :=
  if (tbl.find? (fun p => p.1 == k)).isSome then
    tbl.map (fun p => if p.1 == k then (p.1, p.2 ++ [ing]) else p)
  else
    tbl ++ [(k, [ing])]

/-- Parse the quantity cell of a body row: an exactly empty cell defaults
to 0.0, any other text goes through the float parser. -/
def qtyField (row : List String) : Option ℚ :=
  if row.getD 2 "" = "" then some 0 else pyFloat (row.getD 2 "")

/-- Parse the duration cell of a body row: strip it, map the literal token
indefinite to the nan sentinel, the empty string to 0.0, and any other
text through the float parser. -/
def durField (row : List String) : Option (Option ℚ) :=
  if pyStrip (row.getD 5 "") = "indefinite" then some none
  else if pyStrip (row.getD 5 "") = "" then some (some 0)
  else (pyFloat (pyStrip (row.getD 5 ""))).map some

/-- Parse one body row into an Ingredient, following the per-row work of
load_ingredients: a row with fewer than 6 cells is an IndexError, a bad
quantity or duration cell is a ValueError, both modelled as `none`. The
name is lowercased then stripped; the unit and location are stripped. -/
def parseRow (row : List String) : Option Ingredient :=
  if row.length < 6 then none
  else
    match qtyField row, durField row with
    | some q, some d =>
      some ⟨pyStrip (pyLower (row.getD 1 "")), q, pyStrip (row.getD 3 ""),
            pyStrip (row.getD 4 ""), d⟩
    | _, _ => none

/-- Parser state threaded through the body rows of load_ingredients. -/
structure ParseState where
  current : String
  recipes : RecipeTable
  bulk : List String
deriving DecidableEq, Repr

/-- Process one body row of load_ingredients: update the current recipe
name when the stripped leading cell is nonempty, parse the row into an
ingredient, append it under the current recipe, and record its name in
the bulk set when the duration is the nan sentinel. Any parse failure
aborts the whole load. -/
def loadStep (st : ParseState) (row : List String) : Option ParseState :=
  match parseRow row with
  | none => none
  | some ing =>
    let rname := pyStrip (row.getD 0 "")
    let current := if rname = "" then st.current else rname
    let bulk :=
      if ing.duration = none then
        if st.bulk.contains ing.name then st.bulk else st.bulk ++ [ing.name]
      else st.bulk
    some ⟨current, dictAppend st.recipes current ing, bulk⟩

/-- The load_ingredients function: consume the header row (StopIteration,
modelled as `none`, if the row sequence is empty), then fold the body
rows through `loadStep` starting from an empty table, an empty bulk set
and the empty string as current recipe, returning the recipe table and
the bulk set. -/
def load_ingredients (rows : List (List String)) : Option (RecipeTable × List String) :=
  match rows with
  | [] => none
  | _header :: body =>
    (body.foldlM loadStep ⟨"", [], []⟩).map (fun st => (st.recipes, st.bulk))

/-- A reference to one ingredient object: the recipe key it lives under in
the recipes dict together with its index in that recipe's list. The
Python shopping list stores such object references, not copies. -/
abbrev Ref := String × Nat

/-- State of build_shopping_cart_table while it scans the query: the
current contents of the ingredient objects held by the recipe table
(merging mutates them in place through the aliased references), the
shopping list of references in first-seen order, and the diagnostics
printed so far, each recorded as the ingredient name, the stored unit and
the incoming unit of an incompatible merge. -/
structure CartState where
  recipes : RecipeTable
  shopping : List Ref
  diags : List (String × String × String)
deriving DecidableEq, Repr

/-- Current contents of the ingredient object a reference points to. -/
def deref (tbl : RecipeTable) (r : Ref) : Ingredient :=
  (((tbl.find? (fun p => p.1 == r.1)).map (fun p => p.2)).getD []).getD r.2 default

/-- Add a quantity, in place, to the ingredient object a reference points
to (the statement stored.quantity += quantity). -/
def addQuantity (tbl : RecipeTable) (r : Ref) (q : ℚ) : RecipeTable :=
  tbl.map (fun p =>
    if p.1 == r.1 then
      (p.1, p.2.set r.2 { p.2.getD r.2 default with
                          quantity := (p.2.getD r.2 default).quantity + q })
    else p)

/-- Process one ingredient of one requested recipe, the body of the inner
loop of build_shopping_cart_table: when no ingredient of the same name is
in the shopping list yet, append the reference; otherwise find the first
stored ingredient of that name, convert the incoming unit into the stored
unit, and either record a diagnostic on the nan sentinel (dropping the
incoming quantity) or add the converted quantity, rounded to two decimal
places unless the factor is exactly 1.0, into the stored object. -/
def cartStep (s : CartState) (r : Ref) : CartState :=
  match s.shopping.find? (fun r0 => (deref s.recipes r0).name == (deref s.recipes r).name) with
  | none => { s with shopping := s.shopping ++ [r] }
  | some r0 =>
    match convert_units (deref s.recipes r0).unit (deref s.recipes r).unit with
    | none =>
      { s with diags := s.diags ++
          [((deref s.recipes r).name, (deref s.recipes r0).unit, (deref s.recipes r).unit)] }
    | some conv =>
      { s with recipes := addQuantity s.recipes r0 (
          if conv = 1 then (deref s.recipes r).quantity
          else pyRound2 ((deref s.recipes r).quantity * conv)) }

/-- Run the outer loop of build_shopping_cart_table over the query: for
each requested recipe name, look it up in the recipe table (`none`
models the KeyError aborting the build when it is absent) and feed each
of its ingredient positions through `cartStep`. -/
def runQuery (s : CartState) (query : List String) : Option CartState :=
  match query with
  | [] => some s
  | key :: rest =>
    match dictGet s.recipes key with
    | none => none
    | some ings =>
      runQuery ((List.range ings.length).foldl (fun st i => cartStep st (key, i)) s) rest

/-- Final contents of the merged shopping list: each stored reference read
back from the final state of the recipe table. -/
def shoppingValues (s : CartState) : List Ingredient :=
  s.shopping.map (deref s.recipes)

/-- The fresh ingredients: shopping-list entries whose name is not in the
bulk set, in first-seen order. -/
def freshValues (s : CartState) (bulk : List String) : List Ingredient :=
  (shoppingValues s).filter (fun i => !(bulk.contains i.name))

/-- The pantry ingredients: shopping-list entries whose name is in the
bulk set, in first-seen order. -/
def pantryValues (s : CartState) (bulk : List String) : List Ingredient :=
  (shoppingValues s).filter (fun i => bulk.contains i.name)

/-- Least count of decimal digits after the point that writes the
rational exactly, when one exists. -/
def decExp (d : ℕ) : Option ℕ :=
  (List.range (d + 1)).find? (fun k => 10 ^ k % d == 0)

/-- Decimal digit characters of a natural number. -/
def natDigits (n : ℕ) : List Char :=
  (Nat.toDigits 10 n)

/-- Pad a character list on the left with zeros up to a length. -/
def padZeros (cs : List Char) (k : ℕ) : List Char :=
  List.replicate (k - cs.length) '0' ++ cs

/-- Python str applied to the float model: the shortest decimal writing of
a rational whose denominator is a power of ten times a divisor of it,
always keeping at least one digit after the point, with a leading minus
sign for negative values. A rational with no finite decimal writing
(which the quantities of this program never produce) is written as a
fraction. -/
def ratRepr (q : ℚ) : String :=
  let sign := if q.num < 0 then "-" else ""
  let n := q.num.natAbs
  match decExp q.den with
  | some k =>
    if k = 0 then sign ++ String.mk (natDigits n) ++ ".0"
    else
      let m := n * 10 ^ k / q.den
      let ip := m / 10 ^ k
      let fp := m % 10 ^ k
      sign ++ String.mk (natDigits ip) ++ "." ++ String.mk (padZeros (natDigits fp) k)
  | none => sign ++ String.mk (natDigits n) ++ "/" ++ String.mk (natDigits q.den)

/-- Python int applied to the float model: truncation toward zero. -/
def ratTrunc (q : ℚ) : ℤ :=
  Int.tdiv q.num (q.den : ℤ)

/-- Python str applied to the integer model. -/
def intRepr (z : ℤ) : String :=
  (if z < 0 then "-" else "") ++ String.mk (natDigits z.natAbs)

/-- The ingredient_row function: a single cell holding the name when the
stripped unit is empty; otherwise name, quantity and unit as three cells,
the quantity truncated to an integer when the unit is the literal token
count and written as a float otherwise. -/
def ingredient_row (ing : Ingredient) : List String :=
  if pyStrip ing.unit = "" then [ing.name]
  else if ing.unit = "count" then [ing.name, intRepr (ratTrunc ing.quantity), ing.unit]
  else [ing.name, ratRepr ing.quantity, ing.unit]

/-- Pair up the fresh and pantry rendered rows index by index, padding the
shorter side with three empty cells, as the final loop of
build_shopping_cart_table does. -/
def pairRows (main pantry : List (List String)) : List (List String) :=
  (List.range (max main.length pantry.length)).map
    (fun i => main.getD i ["", "", ""] ++ pantry.getD i ["", "", ""])

/-- The build_shopping_cart_table function, returning both the final cart
state (so that the aliasing side effects on the recipe table stay
observable) and the formatted output table: the title row, one row per
query entry, a blank row, the column header row, and the paired fresh and
pantry renderings. `none` models the KeyError on an unknown recipe name,
which aborts the build with no output table. -/
def build_full (query : List String) (recipes : RecipeTable) (bulk : List String) :
    Option (CartState × List (List String)) :=
  (runQuery ⟨recipes, [], []⟩ query).map (fun s =>
    (s, [["Plan 0"]] ++ query.map (fun k => [k]) ++ [[]]
      ++ [["Ingredients", "", "", "Pantry"]]
      ++ pairRows ((freshValues s bulk).map ingredient_row)
                  ((pantryValues s bulk).map ingredient_row)))

/-- The formatted output table of build_shopping_cart_table alone. -/
def build_shopping_cart_table (query : List String) (recipes : RecipeTable)
    (bulk : List String) : Option (List (List String)) :=
  (build_full query recipes bulk).map (fun p => p.2)

/-- The recipe table of the end-to-end example of the specification. -/
def tblAB : RecipeTable :=
  [("A", [⟨"flour", 1, "cup", "pantry", none⟩]),
   ("B", [⟨"flour", 2, "tbsp", "pantry", none⟩]),
   ("C", [])]

/-- The bulk set of the end-to-end example of the specification. -/
def bulkFlour : List String := ["flour"]

/-- A recipe listing the same ingredient name twice with matching units. -/
def tblDup : RecipeTable :=
  [("A", [⟨"flour", 1, "count", "p", some 0⟩, ⟨"flour", 2, "count", "p", some 0⟩])]

/-- Two recipes sharing an ingredient name with matching units. -/
def tblTwo : RecipeTable :=
  [("A", [⟨"flour", 1, "count", "p", some 0⟩]),
   ("B", [⟨"flour", 2, "count", "p", some 0⟩])]

/-- A recipe with a blank-unit fresh ingredient and a pantry ingredient. -/
def tblBlank : RecipeTable :=
  [("A", [⟨"egg", 3, "", "fridge", some 0⟩, ⟨"flour", 1, "cup", "pantry", none⟩])]

/-! Helper lemmas about the parser fold. -/

theorem loadStep_eq_none (st : ParseState) (row : List String) :
    loadStep st row = none ↔ parseRow row = none := by
  unfold loadStep
  cases h : parseRow row <;> simp

theorem loadFold_eq_none (body : List (List String)) :
    ∀ st : ParseState, body.foldlM loadStep st = none ↔ ∃ r ∈ body, parseRow r = none := by
  induction body with
  | nil => intro st; simp [List.foldlM]
  | cons row rest ih =>
    intro st
    rw [List.foldlM_cons]
    cases h : loadStep st row with
    | none =>
      have hrow : parseRow row = none := (loadStep_eq_none st row).mp h
      simp [hrow]
    | some st' =>
      have hrow : ¬parseRow row = none := by
        intro hr
        rw [(loadStep_eq_none st row).mpr hr] at h
        exact Option.noConfusion h
      simp [h, ih st', hrow]

theorem qtyField_eq_none (r : List String) :
    qtyField r = none ↔ ¬r.getD 2 "" = "" ∧ pyFloat (r.getD 2 "") = none := by
  unfold qtyField
  by_cases h2 : r.getD 2 "" = ""
  · rw [if_pos h2]
    constructor
    · intro h; exact Option.noConfusion h
    · intro h; exact absurd h2 h.1
  · rw [if_neg h2]
    constructor
    · intro h; exact ⟨h2, h⟩
    · intro h; exact h.2

theorem durField_eq_none (r : List String) :
    durField r = none ↔
      ¬pyStrip (r.getD 5 "") = "indefinite" ∧ ¬pyStrip (r.getD 5 "") = ""
        ∧ pyFloat (pyStrip (r.getD 5 "")) = none := by
  unfold durField
  by_cases h5a : pyStrip (r.getD 5 "") = "indefinite"
  · rw [if_pos h5a]
    constructor
    · intro h; exact Option.noConfusion h
    · intro h; exact absurd h5a h.1
  · rw [if_neg h5a]
    by_cases h5b : pyStrip (r.getD 5 "") = ""
    · rw [if_pos h5b]
      constructor
      · intro h; exact Option.noConfusion h
      · intro h; exact absurd h5b h.2.1
    · rw [if_neg h5b]
      constructor
      · intro h; exact ⟨h5a, h5b, Option.map_eq_none'.mp h⟩
      · intro h; exact Option.map_eq_none'.mpr h.2.2

theorem parseRow_eq_none (r : List String) :
    parseRow r = none ↔ r.length < 6 ∨ qtyField r = none ∨ durField r = none := by
  unfold parseRow
  by_cases hl : r.length < 6
  · rw [if_pos hl]; simp [hl]
  · rw [if_neg hl]
    cases hq : qtyField r with
    | none => simp [hq, hl]
    | some q =>
      cases hd : durField r with
      | none => simp [hq, hd, hl]
      | some d => simp [hq, hd, hl]

/-! Helper lemmas about the cart builder: merging mutates quantities in
place but never changes the set of recipe keys, so lookups stay stable. -/

theorem isSome_opt_map {α β : Type} (f : α → β) (o : Option α) :
    (o.map f).isSome = o.isSome := by
  cases o <;> rfl

theorem find_isSome_map_keyfix (l : RecipeTable)
    (f : String × List Ingredient → String × List Ingredient)
    (hf : ∀ p, (f p).1 = p.1) (k : String) :
    ((l.map f).find? (fun p => p.1 == k)).isSome
      = (l.find? (fun p => p.1 == k)).isSome := by
  induction l with
  | nil => rfl
  | cons a rest ih =>
    rw [List.map_cons, List.find?_cons, List.find?_cons]
    have hkey : ((f a).1 == k) = (a.1 == k) := by rw [hf a]
    cases h : (a.1 == k) with
    | true =>
      simp only [hkey, h]
      rfl
    | false =>
      simp only [hkey, h]
      exact ih

theorem dictGet_isSome_addQuantity (tbl : RecipeTable) (r : Ref) (q : ℚ) (k : String) :
    (dictGet (addQuantity tbl r q) k).isSome = (dictGet tbl k).isSome := by
  unfold dictGet addQuantity
  rw [isSome_opt_map, isSome_opt_map]
  apply find_isSome_map_keyfix
  intro p
  by_cases hp : p.1 == r.1
  · rw [if_pos hp]
  · rw [if_neg hp]

theorem dictGet_isSome_cartStep (s : CartState) (r : Ref) (k : String) :
    (dictGet (cartStep s r).recipes k).isSome = (dictGet s.recipes k).isSome := by
  unfold cartStep
  cases hfind : s.shopping.find? (fun r0 => (deref s.recipes r0).name == (deref s.recipes r).name) with
  | none => simp only [hfind]
  | some r0 =>
    simp only [hfind]
    cases hconv : convert_units (deref s.recipes r0).unit (deref s.recipes r).unit with
    | none => simp only [hconv]
    | some conv =>
      simp only [hconv]
      exact dictGet_isSome_addQuantity s.recipes r0 _ k

theorem dictGet_isSome_foldSteps (l : List ℕ) (key : String) :
    ∀ (s : CartState) (k : String),
      (dictGet ((l.foldl (fun st i => cartStep st (key, i)) s).recipes) k).isSome
        = (dictGet s.recipes k).isSome := by
  induction l with
  | nil => intro s k; rfl
  | cons i rest ih =>
    intro s k
    rw [List.foldl_cons, ih, dictGet_isSome_cartStep]

theorem runQuery_isSome_iff (query : List String) :
    ∀ s : CartState,
      (runQuery s query).isSome ↔ ∀ k ∈ query, (dictGet s.recipes k).isSome := by
  induction query with
  | nil => intro s; simp [runQuery]
  | cons key rest ih =>
    intro s
    unfold runQuery
    cases h : dictGet s.recipes key with
    | none =>
      simp only [Option.isSome_none]
      constructor
      · intro hfalse; exact absurd hfalse (by simp)
      · intro hall
        have := hall key (List.mem_cons_self key rest)
        rw [h] at this
        exact absurd this (by simp)
    | some ings =>
      rw [ih]
      constructor
      · intro hrest k hk
        rcases List.mem_cons.mp hk with hkey | hk2
        · rw [hkey, h]; rfl
        · rw [← dictGet_isSome_foldSteps (List.range ings.length) key s k]
          exact hrest k hk2
      · intro hall k hk
        rw [dictGet_isSome_foldSteps (List.range ings.length) key s k]
        exact hall k (List.mem_cons_of_mem key hk)

/-! Helper lemmas for rows whose leading cell is blank: the parser keeps
collecting them under the current recipe name, which starts out as the
empty string. -/

theorem dictAppend_keys_blank (tbl : RecipeTable) (ing : Ingredient)
    (h : ∀ p ∈ tbl, p.1 = "") : ∀ p ∈ dictAppend tbl "" ing, p.1 = "" := by
  intro p hp
  unfold dictAppend at hp
  by_cases hfind : (tbl.find? (fun q => q.1 == "")).isSome = true
  · rw [if_pos hfind] at hp
    rcases List.mem_map.mp hp with ⟨q, hq, rfl⟩
    by_cases hq1 : (q.1 == "") = true
    · rw [if_pos hq1]
      exact h q hq
    · rw [if_neg hq1]
      exact h q hq
  · rw [if_neg hfind] at hp
    rcases List.mem_append.mp hp with hin | hnew
    · exact h p hin
    · rw [List.mem_singleton.mp hnew]

theorem loadStep_blank (st : ParseState) (row : List String) (st' : ParseState)
    (hc : st.current = "") (hk : ∀ p ∈ st.recipes, p.1 = "")
    (hb : pyStrip (row.getD 0 "") = "") (h : loadStep st row = some st') :
    st'.current = "" ∧ ∀ p ∈ st'.recipes, p.1 = "" := by
  unfold loadStep at h
  cases hr : parseRow row with
  | none =>
    rw [hr] at h
    exact Option.noConfusion h
  | some ing =>
    rw [hr] at h
    have hst : st' = ⟨if pyStrip (row.getD 0 "") = "" then st.current else pyStrip (row.getD 0 ""),
        dictAppend st.recipes
          (if pyStrip (row.getD 0 "") = "" then st.current else pyStrip (row.getD 0 "")) ing,
        if ing.duration = none then
          (if st.bulk.contains ing.name then st.bulk else st.bulk ++ [ing.name])
        else st.bulk⟩ := (Option.some.inj h).symm
    rw [hst]
    rw [if_pos hb, hc]
    exact ⟨rfl, dictAppend_keys_blank st.recipes ing hk⟩

theorem loadFold_blank (body : List (List String)) :
    ∀ st : ParseState, st.current = "" → (∀ p ∈ st.recipes, p.1 = "") →
      (∀ r ∈ body, pyStrip (r.getD 0 "") = "") →
      ∀ st', body.foldlM loadStep st = some st' →
        st'.current = "" ∧ ∀ p ∈ st'.recipes, p.1 = "" := by
  induction body with
  | nil =>
    intro st hc hk _ st' h
    have : st = st' := Option.some.inj h
    rw [← this]
    exact ⟨hc, hk⟩
  | cons row rest ih =>
    intro st hc hk hb st' h
    rw [List.foldlM_cons] at h
    cases hs : loadStep st row with
    | none =>
      rw [hs] at h
      exact Option.noConfusion h
    | some st1 =>
      rw [hs] at h
      have h1 := loadStep_blank st row st1 hc hk (hb row (List.mem_cons_self row rest)) hs
      exact ih st1 h1.1 h1.2 (fun r hr => hb r (List.mem_cons_of_mem row hr)) st' h

theorem dictGet_none_of_blank (tbl : RecipeTable) (h : ∀ p ∈ tbl, p.1 = "")
    (k : String) (hk : ¬k = "") : dictGet tbl k = none := by
  unfold dictGet
  rw [List.find?_eq_none.mpr]
  · rfl
  · intro p hp hcontra
    exact hk ((beq_iff_eq.mp hcontra).symm.trans (h p hp))

/-- C8: unit conversion is reflexive: for any two unit strings that agree
up to letter case, recognized by the tables or not, convert_units returns
exactly 1.0, by the case-insensitive equality short circuit. -/
theorem c8_convert_reflexive (a b : String) (h : pyLower a = pyLower b) :
    convert_units a b = some 1 := by
  unfold convert_units
  rw [if_pos h]

theorem c8_witness :
    convert_units "TBSP" "tbsp" = some 1 ∧ convert_units "parsnip" "parsnip" = some 1 :=
  ⟨c8_convert_reflexive "TBSP" "tbsp" (by with_unfolding_all rfl),
   c8_convert_reflexive "parsnip" "parsnip" rfl⟩

/-- C10: parsing a completely empty row sequence fails (the header row is
consumed unconditionally, so a missing header is a StopIteration error
rather than an empty result), while a sequence holding only the header
row succeeds with an empty recipe table and an empty bulk set. -/
theorem c10_header_consumed :
    load_ingredients [] = none ∧
      ∀ header : List String, load_ingredients [header] = some ([], []) :=
  ⟨rfl, fun _ => rfl⟩

/-- C5: whenever the query names at least one recipe absent from the
recipe table, the cart build fails with the lookup error and returns no
output table at all. -/
theorem c5_unknown_recipe_aborts (query : List String) (recipes : RecipeTable)
    (bulk : List String) (h : ∃ k ∈ query, dictGet recipes k = none) :
    build_shopping_cart_table query recipes bulk = none := by
  have hns : ¬(runQuery ⟨recipes, [], []⟩ query).isSome = true := by
    rw [runQuery_isSome_iff]
    intro hall
    rcases h with ⟨k, hk, hnone⟩
    have hsome := hall k hk
    rw [hnone] at hsome
    exact Bool.noConfusion hsome
  have hnone : runQuery ⟨recipes, [], []⟩ query = none := by
    cases hq : runQuery ⟨recipes, [], []⟩ query with
    | none => rfl
    | some s => rw [hq] at hns; exact absurd rfl hns
  unfold build_shopping_cart_table build_full
  rw [hnone]
  rfl

theorem c5_witness : build_shopping_cart_table ["Z"] tblAB bulkFlour = none :=
  c5_unknown_recipe_aborts ["Z"] tblAB bulkFlour
    ⟨"Z", List.mem_singleton.mpr rfl, by with_unfolding_all rfl⟩

/-- C4: when a merge meets the incompatible-units nan sentinel, the step
leaves the recipe table (hence the stored quantity and unit) and the
shopping list unchanged, drops the incoming quantity, and only appends a
diagnostic; and the condition is non-fatal: the build returns an output
table whenever every queried recipe name exists. -/
theorem c4_incompatible_units_nonfatal :
    (∀ (s : CartState) (r r0 : Ref),
      s.shopping.find? (fun x => (deref s.recipes x).name == (deref s.recipes r).name)
        = some r0 →
      convert_units (deref s.recipes r0).unit (deref s.recipes r).unit = none →
      cartStep s r = ⟨s.recipes, s.shopping,
        s.diags ++ [((deref s.recipes r).name, (deref s.recipes r0).unit,
                     (deref s.recipes r).unit)]⟩)
    ∧ ∀ (query : List String) (recipes : RecipeTable) (bulk : List String),
        (∀ k ∈ query, (dictGet recipes k).isSome) →
        (build_shopping_cart_table query recipes bulk).isSome := by
  constructor
  · intro s r r0 hfind hconv
    unfold cartStep
    simp only [hfind, hconv]
  · intro query recipes bulk hall
    have hsome := (runQuery_isSome_iff query ⟨recipes, [], []⟩).mpr hall
    unfold build_shopping_cart_table build_full
    cases hq : runQuery ⟨recipes, [], []⟩ query with
    | none => rw [hq] at hsome; exact Bool.noConfusion hsome
    | some s => rfl

theorem c4_witness :
    cartStep ⟨[("A", [⟨"flour", 1, "cup", "p", none⟩]), ("B", [⟨"flour", 2, "g", "p", none⟩])],
              [("A", 0)], []⟩ ("B", 0) =
      ⟨[("A", [⟨"flour", 1, "cup", "p", none⟩]), ("B", [⟨"flour", 2, "g", "p", none⟩])],
       [("A", 0)], [("flour", "cup", "g")]⟩
    ∧ (build_shopping_cart_table ["A", "B"]
        [("A", [⟨"flour", 1, "cup", "p", none⟩]), ("B", [⟨"flour", 2, "g", "p", none⟩])]
        []).isSome := by
  constructor
  · exact c4_incompatible_units_nonfatal.1 _ ("B", 0) ("A", 0)
      (by with_unfolding_all rfl) (by with_unfolding_all rfl)
  · exact c4_incompatible_units_nonfatal.2 ["A", "B"] _ []
      (by intro k hk; fin_cases hk <;> with_unfolding_all rfl)

/-- C6: for every input row sequence with a header, the parse fails hard,
returning no partial recipe table, exactly when some body row has fewer
than 6 cells, or a nonempty non-numeric quantity cell, or a duration cell
whose stripped text is nonempty, not the literal token indefinite, and
not numeric; and a successfully parsed row turns an exactly empty
quantity cell into the quantity 0.0 and a stripped-empty duration cell
into the duration 0.0. -/
theorem c6_parse_errors (header : List String) (body : List (List String)) :
    (load_ingredients (header :: body) = none ↔
      ∃ r ∈ body, r.length < 6
        ∨ (¬r.getD 2 "" = "" ∧ pyFloat (r.getD 2 "") = none)
        ∨ (¬pyStrip (r.getD 5 "") = "indefinite" ∧ ¬pyStrip (r.getD 5 "") = ""
            ∧ pyFloat (pyStrip (r.getD 5 "")) = none))
    ∧ (∀ r ing, parseRow r = some ing →
        (r.getD 2 "" = "" → ing.quantity = 0)
        ∧ (pyStrip (r.getD 5 "") = "" → ing.duration = some 0)) := by
  constructor
  · have h1 : load_ingredients (header :: body) = none ↔
        body.foldlM loadStep ⟨"", [], []⟩ = none := by
      unfold load_ingredients
      exact Option.map_eq_none'
    rw [h1, loadFold_eq_none]
    constructor
    · rintro ⟨r, hr, hnone⟩
      refine ⟨r, hr, ?_⟩
      rcases (parseRow_eq_none r).mp hnone with hl | hq | hd
      · exact Or.inl hl
      · exact Or.inr (Or.inl ((qtyField_eq_none r).mp hq))
      · exact Or.inr (Or.inr ((durField_eq_none r).mp hd))
    · rintro ⟨r, hr, hbad⟩
      refine ⟨r, hr, (parseRow_eq_none r).mpr ?_⟩
      rcases hbad with hl | hq | hd
      · exact Or.inl hl
      · exact Or.inr (Or.inl ((qtyField_eq_none r).mpr hq))
      · exact Or.inr (Or.inr ((durField_eq_none r).mpr hd))
  · intro r ing h
    unfold parseRow at h
    by_cases hl : r.length < 6
    · rw [if_pos hl] at h
      exact Option.noConfusion h
    · rw [if_neg hl] at h
      cases hq : qtyField r with
      | none =>
        rw [hq] at h
        exact Option.noConfusion h
      | some q =>
        cases hd : durField r with
        | none =>
          rw [hq, hd] at h
          exact Option.noConfusion h
        | some d =>
          rw [hq, hd] at h
          have hing : ing = ⟨pyStrip (pyLower (r.getD 1 "")), q, pyStrip (r.getD 3 ""),
              pyStrip (r.getD 4 ""), d⟩ := (Option.some.inj h).symm
          constructor
          · intro h2
            rw [hing]
            show q = 0
            unfold qtyField at hq
            rw [if_pos h2] at hq
            exact (Option.some.inj hq).symm
          · intro h5
            rw [hing]
            show d = some 0
            have h5a : ¬pyStrip (r.getD 5 "") = "indefinite" := by
              rw [h5]
              decide
            unfold durField at hd
            rw [if_neg h5a, if_pos h5] at hd
            exact (Option.some.inj hd).symm

theorem c6_witness :
    load_ingredients [[], ["A", "x", "bad", "u", "l", "5"]] = none :=
  (c6_parse_errors [] [["A", "x", "bad", "u", "l", "5"]]).1.mpr
    ⟨["A", "x", "bad", "u", "l", "5"], List.mem_singleton.mpr rfl,
     Or.inr (Or.inl ⟨by decide, by with_unfolding_all rfl⟩)⟩

/-- C9: body rows whose stripped leading cell is blank are not rejected:
while no named section has started they are collected under the
empty-string recipe name (the current-recipe state starts as the empty
string), so every key of the resulting table is the empty string and a
lookup under any nonempty recipe name returns nothing. -/
theorem c9_blank_lead_rows (header : List String) (body : List (List String))
    (hblank : ∀ r ∈ body, pyStrip (r.getD 0 "") = "") :
    ((∀ r ∈ body, ¬parseRow r = none) → (load_ingredients (header :: body)).isSome)
    ∧ ∀ tbl bulk, load_ingredients (header :: body) = some (tbl, bulk) →
        (∀ p ∈ tbl, p.1 = "") ∧ ∀ k, ¬k = "" → dictGet tbl k = none := by
  constructor
  · intro hok
    unfold load_ingredients
    rw [isSome_opt_map]
    cases hf : body.foldlM loadStep ⟨"", [], []⟩ with
    | none =>
      rcases (loadFold_eq_none body ⟨"", [], []⟩).mp hf with ⟨r, hr, hnone⟩
      exact absurd hnone (hok r hr)
    | some st => rfl
  · intro tbl bulk h
    have h2 : Option.map (fun st : ParseState => (st.recipes, st.bulk))
        (body.foldlM loadStep ⟨"", [], []⟩) = some (tbl, bulk) := h
    cases hf : body.foldlM loadStep ⟨"", [], []⟩ with
    | none =>
      rw [hf] at h2
      exact Option.noConfusion h2
    | some st =>
      rw [hf] at h2
      have hst : (st.recipes, st.bulk) = (tbl, bulk) := Option.some.inj h2
      have hkeys := (loadFold_blank body ⟨"", [], []⟩ rfl
        (fun p hp => absurd hp (List.not_mem_nil p)) hblank st hf).2
      have htbl : st.recipes = tbl := congrArg Prod.fst hst
      constructor
      · rw [← htbl]
        exact hkeys
      · intro k hk
        rw [← htbl]
        exact dictGet_none_of_blank st.recipes hkeys k hk

theorem c9_witness :
    (load_ingredients [[], ["", "egg", "3", "count", "fridge", "7"]]).isSome = true
    ∧ dictGet [("", [⟨"egg", 3, "count", "fridge", some 7⟩])] "A" = none := by
  have hblank : ∀ r ∈ [["", "egg", "3", "count", "fridge", "7"]],
      pyStrip (r.getD 0 "") = "" := by
    intro r hr
    rw [List.mem_singleton.mp hr]
    with_unfolding_all rfl
  have hp : parseRow ["", "egg", "3", "count", "fridge", "7"]
      = some ⟨"egg", 3, "count", "fridge", some 7⟩ := by
    with_unfolding_all rfl
  have hload : load_ingredients [[], ["", "egg", "3", "count", "fridge", "7"]]
      = some ([("", [⟨"egg", 3, "count", "fridge", some 7⟩])], []) := by
    with_unfolding_all rfl
  constructor
  · exact (c9_blank_lead_rows [] _ hblank).1 (by
      intro r hr hcon
      rw [List.mem_singleton.mp hr] at hcon
      rw [hp] at hcon
      exact Option.noConfusion hcon)
  · exact ((c9_blank_lead_rows [] _ hblank).2
      [("", [⟨"egg", 3, "count", "fridge", some 7⟩])] [] hload).2 "A" (by decide)

/-- C7 counterexample: in the formatted output for a fresh ingredient with
a blank unit (rendered as a single cell) paired with a pantry ingredient
(rendered as three cells), the emitted paired row has 4 cells, not 6, so
the pantry rendering does not start at cell index 3. -/
theorem c7_six_cells_refuted :
    build_shopping_cart_table ["A"] tblBlank bulkFlour =
      some [["Plan 0"], ["A"], [], ["Ingredients", "", "", "Pantry"],
            ["egg", "flour", "1.0", "cup"]]
    ∧ ¬((["egg", "flour", "1.0", "cup"] : List String).length = 6) := by
  refine ⟨by with_unfolding_all rfl, by decide⟩

/-- C7 amended: the paired section has one row per index below the larger
of the two list lengths, each row being the rendering of the fresh entry
(or three empty padding cells past its end) concatenated with the
rendering of the pantry entry (or padding); an ingredient renders to one
cell when its stripped unit is empty and to three cells otherwise; and
whenever every rendered row on both sides has three cells, each paired
row has exactly six cells and its pantry rendering starts at cell
index 3. -/
theorem c7_paired_rows :
    (∀ main pantry : List (List String),
      (pairRows main pantry).length = max main.length pantry.length
      ∧ ∀ i, i < max main.length pantry.length →
          (pairRows main pantry).getD i []
            = main.getD i ["", "", ""] ++ pantry.getD i ["", "", ""])
    ∧ (∀ ing : Ingredient,
        (ingredient_row ing).length = if pyStrip ing.unit = "" then 1 else 3)
    ∧ ∀ main pantry : List (List String),
        (∀ row ∈ main, row.length = 3) → (∀ row ∈ pantry, row.length = 3) →
        ∀ i, i < max main.length pantry.length →
          ((pairRows main pantry).getD i []).length = 6
          ∧ ((pairRows main pantry).getD i []).drop 3 = pantry.getD i ["", "", ""] := by
  have hgetD : ∀ (main pantry : List (List String)) i, i < max main.length pantry.length →
      (pairRows main pantry).getD i []
        = main.getD i ["", "", ""] ++ pantry.getD i ["", "", ""] := by
    intro main pantry i hi
    unfold pairRows
    rw [List.getD_eq_getElem?_getD, List.getElem?_map, List.getElem?_range hi]
    rfl
  have hpadlen : ∀ (l : List (List String)) i, (∀ row ∈ l, row.length = 3) →
      (l.getD i ["", "", ""]).length = 3 := by
    intro l i hl
    by_cases hil : i < l.length
    · rw [List.getD_eq_getElem l _ hil]
      exact hl _ (List.getElem_mem hil)
    · rw [List.getD_eq_getElem?_getD, List.getElem?_eq_none (Nat.le_of_not_lt hil)]
      rfl
  refine ⟨?_, ?_, ?_⟩
  · intro main pantry
    constructor
    · unfold pairRows
      rw [List.length_map, List.length_range]
    · exact hgetD main pantry
  · intro ing
    unfold ingredient_row
    by_cases h : pyStrip ing.unit = ""
    · rw [if_pos h, if_pos h]
      rfl
    · rw [if_neg h, if_neg h]
      by_cases hc : ing.unit = "count"
      · rw [if_pos hc]
        rfl
      · rw [if_neg hc]
        rfl
  · intro main pantry hm hp i hi
    have hrow := hgetD main pantry i hi
    have hmain := hpadlen main i hm
    have hpant := hpadlen pantry i hp
    constructor
    · rw [hrow, List.length_append, hmain, hpant]
    · rw [hrow, ← hmain, List.drop_left]

theorem c7_witness :
    ((pairRows [["a", "1", "u"]] []).getD 0 []).length = 6
    ∧ ((pairRows [["a", "1", "u"]] []).getD 0 []).drop 3 = ["", "", ""] := by
  exact c7_paired_rows.2.2 [["a", "1", "u"]] []
    (by intro row hr; rw [List.mem_singleton.mp hr]; rfl)
    (by intro row hr; exact absurd hr (List.not_mem_nil row))
    0 (by decide)

/-- C1 counterexample: on the recipe table of the end-to-end example the
build of the query A, B does give an empty fresh list, but the pantry
list is not the claimed flour, 1.12, cup triple. -/
theorem c1_spec_value_refuted :
    ¬((build_full ["A", "B"] tblAB bulkFlour).map (fun p =>
        (freshValues p.1 bulkFlour,
         (pantryValues p.1 bulkFlour).map (fun i => (i.name, i.quantity, i.unit)))) =
      some ([], [("flour", 112 / 100, "cup")])) := by
  with_unfolding_all exact of_decide_eq_false rfl

/-- C1 amended: building the cart for the query A, B over that table
yields an empty fresh list and the pantry list flour, 33.0, cup: the
conversion factor the code applies to the 2 tbsp entry is the stored
cup constant over the tbsp constant, about 16, so the merged quantity is
1 + round(2 * 0.236588 / 0.0147868, 2) = 33.0, and the stored unit stays
cup. -/
theorem c1_actual_value :
    (build_full ["A", "B"] tblAB bulkFlour).map (fun p =>
        (freshValues p.1 bulkFlour,
         (pantryValues p.1 bulkFlour).map (fun i => (i.name, i.quantity, i.unit)))) =
      some ([], [("flour", 33, "cup")]) := by
  with_unfolding_all rfl

/-- C2: building the cart does not leave the recipe table unchanged: the
shopping list stores the very ingredient objects of the recipe table (no
copy is made on append), so the in-place merge of B's flour raises the
quantity of the flour object stored under recipe A from 1 to 3. -/
theorem c2_recipe_table_mutated :
    (runQuery ⟨tblTwo, [], []⟩ ["A", "B"]).map (fun s => s.recipes) =
      some [("A", [⟨"flour", 3, "count", "p", some 0⟩]),
            ("B", [⟨"flour", 2, "count", "p", some 0⟩])]
    ∧ ¬((runQuery ⟨tblTwo, [], []⟩ ["A", "B"]).map (fun s => s.recipes) = some tblTwo) := by
  constructor
  · with_unfolding_all rfl
  · with_unfolding_all exact of_decide_eq_false rfl

/-- C3: querying the same recipe twice does not double every quantity:
for the recipe A listing flour twice with the unit count (so every merge
conversion is exactly 1.0, never the nan sentinel), a single query gives
flour quantity 3 while the doubled query gives 8, not 6, because the
merged shopping entry aliases the first recipe row and the second pass
re-reads its already-mutated quantity. -/
theorem c3_double_query_not_doubled :
    (runQuery ⟨tblDup, [], []⟩ ["A"]).map shoppingValues =
      some [⟨"flour", 3, "count", "p", some 0⟩]
    ∧ (runQuery ⟨tblDup, [], []⟩ ["A", "A"]).map shoppingValues =
      some [⟨"flour", 8, "count", "p", some 0⟩]
    ∧ ¬((8 : ℚ) = 2 * 3) := by
  refine ⟨by with_unfolding_all rfl, by with_unfolding_all rfl, by norm_num⟩
